import Mathlib

set_option maxHeartbeats 1000000

/-! Verification of the joi-ts-generator type-derivation engine.

The repository has two generator variants sharing one algorithm:
`src/cli.ts` (the configuration-driven CLI, namespace `cli` below) and
`src/index.ts` (the minimal two-argument generator, namespace `idx` below),
plus a runtime coercion module (namespace `coercion`).  Schema nodes are
joi schema objects; only the fields the generator reads are modelled:
`_type`, `_notes`, `_tests` (test names), `_flags.presence`,
`_valids._set`, `_inner.items`, `_inner.children` (key/schema pairs) and
`_inner.matches`.  The process-global mutable registry `discoveredTypes`
becomes explicit state passing; a thrown `Error` becomes `Except String`. -/

/-- Entry of the named-type registry, mirroring `IDiscoverableType`:
`name` is the unique key, `type` the optional base expression (absent is
modelled as `none`), `skip` marks entries that are themselves top-level
schemas (absent modelled as `false`, matching JS truthiness). -/
structure IDiscoverableType where
  name : String
  type : Option String
  skip : Bool
deriving DecidableEq

/-- Shallow embedding of a joi schema node, carrying exactly the internal
joi fields the generator reads.  `presence` is `_flags.presence` (absent
is `none`; the source reads it with default "optional"), `valids` is
`Array.from(_valids._set)` with each allowed value in its rendered raw
text, `tests` holds the names of the attached `_tests`. -/
inductive Schema where
  | mk (ty : String) (notes : List String) (tests : List String)
       (presence : Option String) (valids : List String)
       (items : List Schema) (children : List (String × Schema))
       («matches» : List Schema)

/-- The `_type` discriminant of a schema node. -/
def Schema.ty : Schema → String
  | .mk t _ _ _ _ _ _ _ => t

/-- The `_notes` list of a schema node. -/
def Schema.notes : Schema → List String
  | .mk _ n _ _ _ _ _ _ => n

/-- The names of the `_tests` attached to a schema node. -/
def Schema.tests : Schema → List String
  | .mk _ _ t _ _ _ _ _ => t

/-- The `_flags.presence` field (`none` when absent). -/
def Schema.presence : Schema → Option String
  | .mk _ _ _ p _ _ _ _ => p

/-- The allowed-value set `_valids._set`, in iteration order. -/
def Schema.valids : Schema → List String
  | .mk _ _ _ _ v _ _ _ => v

/-- The `_inner.items` sequence of an array schema. -/
def Schema.items : Schema → List Schema
  | .mk _ _ _ _ _ i _ _ => i

/-- The `_inner.children` sequence of an object schema (key/schema pairs). -/
def Schema.children : Schema → List (String × Schema)
  | .mk _ _ _ _ _ _ c _ => c

/-- The `_inner.matches` sequence of an alternatives schema. -/
def Schema.«matches» : Schema → List Schema
  | .mk _ _ _ _ _ _ _ m => m

/-- Test of the regular expression `/^type:/` on a note string. -/
def typeCheckTest (n : String) : Bool :=
  decide (n.data.take 5 = String.data ("type:"))

/-- Result of `note.replace(/^type:/, "")`: the `type:` prefix is removed
when it is present, otherwise the string is unchanged. -/
def stripTypeTag (n : String) : String :=
  if typeCheckTest n then String.mk (n.data.drop 5) else n

/-- A joi alias source as passed to `resolveTypeDefinition`, whose `node`
argument is either a registry base-expression string, a schema node, or
`undefined` (from a registry entry without a `type`). -/
inductive AliasSrc where
  | str (s : String)
  | sch (s : Schema)
  | undef

namespace cli

/-- The mutable module-level `discoveredTypes` array starts empty. -/
def discoveredTypes : List IDiscoverableType := []

/-- Registration into the named-type registry: a lodash `find` by `name`
guards the push, so a later entry under an existing name is a no-op. -/
def addDiscoveredType (reg : List IDiscoverableType) (type : IDiscoverableType) :
    List IDiscoverableType :=
  if (reg.find? (fun d => d.name == type.name)).isSome then reg
  else reg ++ [type]

/-- Predicate `usableNotes`: some note matches `/^type:/`. -/
def usableNotes (s : Schema) : Bool :=
  (s.notes.find? (fun n => typeCheckTest n)).isSome

/-- Predicate `isRequiredSchema`: `_flags.presence` (default "optional")
equals "required". -/
def isRequiredSchema (s : Schema) : Bool :=
  s.presence.getD ("optional") == "required"

/-- Accessor `getUnion`: the allowed-value set of a node. -/
def getUnion (s : Schema) : List String :=
  s.valids

/-- Field-name renderer `propName`: the key, suffixed with a question mark
unless the child is required or `useOptionTypes` is set. -/
def propName (useOptionTypes : Bool) (key : String) (schema : Schema) : String :=
  if isRequiredSchema schema || useOptionTypes then key else key ++ "?"

/-- Primitive-kind mapping `joiToTypescript`: `date` maps to `Date`,
every other kind passes through unchanged. -/
def joiToTypescript (type : String) : String :=
  match type with
  | "date" => "Date"
  | _ => type

/-- Extraction `nameFromNotes`: the first note matching `/^type:/` with
the prefix stripped; throws when no note matches. -/
def nameFromNotes (notes : List String) : Except String String :=
  match notes.find? (fun n => typeCheckTest n) with
  | none => .error ("Must provide type information through notes.")
  | some note => .ok (stripTypeTag note)

/-- Step `unwrapNotes`: extract the name, register it with the node's
base kind as its base expression, and return the name. -/
def unwrapNotes (reg : List IDiscoverableType) (type : String) (notes : List String) :
    Except String (List IDiscoverableType × String) :=
  match nameFromNotes notes with
  | .error e => .error e
  | .ok name => .ok (addDiscoveredType reg ⟨name, some type, false⟩, name)

/-- Predicate `alternativesCheck`: the node kind is `alternatives`. -/
def alternativesCheck (s : Schema) : Bool :=
  s.ty == "alternatives"

/-- Predicate `uuidCheck`: some attached test is named `guid`. -/
def uuidCheck (s : Schema) : Bool :=
  (s.tests.find? (fun t => t == "guid")).isSome

/-- Wrapper `optionTypeWrapper` used when `useOptionTypes` is set. -/
def optionTypeWrapper (type : String) : String :=
  "Option<" ++ type ++ ">"

mutual

/-- Array rendering `unwrapArray` over `_inner.items`: destructure into
`[item, ...rest]`; when `some(rest)` (the items are schema objects, hence
truthy, so this is rest-nonemptiness) render `Array<...>` over all items
joined by the union operator, otherwise render `item[]`.  An empty items
sequence makes the source dereference `undefined`, modelled as an error. -/
def unwrapArray (reg : List IDiscoverableType) (items : List Schema) :
    Except String (List IDiscoverableType × String) :=
  match items with
  | [] => .error ("TypeError: Cannot read property of undefined")
  | [item] =>
    match deriveType reg item with
    | .error e => .error e
    | .ok (reg1, t) => .ok (reg1, t ++ "[]")
  | item :: next :: rest =>
    match deriveTypeList reg (item :: next :: rest) with
    | .error e => .error e
    | .ok (reg1, ts) => .ok (reg1, "Array<" ++ String.intercalate (" | ") ts ++ ">")
termination_by (sizeOf items, 1)

/-- The Type Deriver `deriveType` of the CLI variant, with its dispatch
order: array, usable notes, guid test, alternatives, primitive fallback. -/
def deriveType (reg : List IDiscoverableType) (s : Schema) :
    Except String (List IDiscoverableType × String) :=
  match s with
  | .mk ty notes tests _ _ items _ ms =>
    if ty == "array" then unwrapArray reg items
    else if (notes.find? (fun n => typeCheckTest n)).isSome then unwrapNotes reg ty notes
    else if (tests.find? (fun t => t == "guid")).isSome then
      .ok (addDiscoveredType reg ⟨"Uuid", some ("string"), false⟩, "Uuid")
    else if ty == "alternatives" then
      match deriveTypeList reg ms with
      | .error e => .error e
      | .ok (reg1, ts) => .ok (reg1, String.intercalate (" | ") ts)
    else .ok (reg, joiToTypescript ty)
termination_by (sizeOf s, 0)

/-- Sequential mapping of `deriveType` over a list of schema nodes,
threading the registry left to right, as the source's `items.map(deriveType)`
and `matches.map(...)` do against the global registry. -/
def deriveTypeList (reg : List IDiscoverableType) (ss : List Schema) :
    Except String (List IDiscoverableType × List String) :=
  match ss with
  | [] => .ok (reg, [])
  | s :: rest =>
    match deriveType reg s with
    | .error e => .error e
    | .ok (reg1, t) =>
      match deriveTypeList reg1 rest with
      | .error e => .error e
      | .ok (reg2, ts) => .ok (reg2, t :: ts)
termination_by (sizeOf ss, 0)

end

end cli

/-- Extraction of a matching error from an equality of result projections. -/
theorem sndMapErrorEq {ρ α : Type} {a b : Except String (ρ × α)} {e : String}
    (h : a.map Prod.snd = b.map Prod.snd) (ha : a = .error e) : b = .error e := by
  subst ha
  cases b with
  | error e2 =>
    simp [Except.map] at h
    simp [h]
  | ok p => simp [Except.map] at h

/-- Extraction of a matching value from an equality of result projections. -/
theorem sndMapOkEq {ρ α : Type} {a b : Except String (ρ × α)} {r : ρ} {t : α}
    (h : a.map Prod.snd = b.map Prod.snd) (ha : a = .ok (r, t)) :
    ∃ r2, b = .ok (r2, t) := by
  subst ha
  cases b with
  | error e2 => simp [Except.map] at h
  | ok p =>
    obtain ⟨p1, p2⟩ := p
    simp [Except.map] at h
    exact ⟨p1, by simp [h]⟩

namespace cli

/-- The string produced by the Type Deriver does not depend on the registry
passed in: only the returned registry does (list form). -/
theorem deriveTypeList_snd_indep : ∀ reg ss reg2,
    (deriveTypeList reg ss).map Prod.snd = (deriveTypeList reg2 ss).map Prod.snd := by
  refine deriveTypeList.induct
    (fun reg items => ∀ reg2,
      (unwrapArray reg items).map Prod.snd = (unwrapArray reg2 items).map Prod.snd)
    (fun reg ss => ∀ reg2,
      (deriveTypeList reg ss).map Prod.snd = (deriveTypeList reg2 ss).map Prod.snd)
    (fun reg s => ∀ reg2,
      (deriveType reg s).map Prod.snd = (deriveType reg2 s).map Prod.snd)
    ?_ ?_ ?_ ?_ ?_ ?_ ?_ ?_ ?_ ?_ ?_ ?_ ?_ ?_ ?_
  · intro reg reg2
    simp [unwrapArray]
  · intro reg item e h ih reg2
    have hb := sndMapErrorEq (ih reg2) h
    simp [unwrapArray, h, hb]
  · intro reg item reg1 t h ih reg2
    obtain ⟨r2, hb⟩ := sndMapOkEq (ih reg2) h
    simp [unwrapArray, h, hb, Except.map]
  · intro reg item next rest e h ih reg2
    have hb := sndMapErrorEq (ih reg2) h
    simp [unwrapArray, h, hb]
  · intro reg item next rest reg1 ts h ih reg2
    obtain ⟨r2, hb⟩ := sndMapOkEq (ih reg2) h
    simp [unwrapArray, h, hb, Except.map]
  · intro reg reg2
    simp [deriveTypeList, Except.map]
  · intro reg s rest e h ih reg2
    have hb := sndMapErrorEq (ih reg2) h
    simp [deriveTypeList, h, hb]
  · intro reg s rest reg1 t h1 e h2 ih3 ih2 reg2
    obtain ⟨r2, hb⟩ := sndMapOkEq (ih3 reg2) h1
    have hl := sndMapErrorEq (ih2 r2) h2
    simp [deriveTypeList, h1, hb, h2, hl]
  · intro reg s rest reg1 t h1 rega ts h2 ih3 ih2 reg2
    obtain ⟨r2, hb⟩ := sndMapOkEq (ih3 reg2) h1
    obtain ⟨r3, hl⟩ := sndMapOkEq (ih2 r2) h2
    simp [deriveTypeList, h1, hb, h2, hl, Except.map]
  · intro reg t notes tests presence valids items children ms h ih reg2
    simp only [deriveType, h, if_pos]
    exact ih reg2
  · intro reg t notes tests presence valids items children ms hne hnotes reg2
    simp only [deriveType, hne, hnotes, if_pos, if_neg, Bool.not_eq_true]
    cases hn : nameFromNotes notes <;> simp [unwrapNotes, hn, Except.map]
  · intro reg t notes tests presence valids items children ms hne hnn hguid reg2
    simp [deriveType, hne, hnn, hguid, Except.map]
  · intro reg t notes tests presence valids items children ms hne hnn hng halt e h ih reg2
    have hb := sndMapErrorEq (ih reg2) h
    simp [deriveType, hne, hnn, hng, halt, h, hb]
  · intro reg t notes tests presence valids items children ms hne hnn hng halt reg1 ts h ih reg2
    obtain ⟨r2, hb⟩ := sndMapOkEq (ih reg2) h
    simp [deriveType, hne, hnn, hng, halt, h, hb, Except.map]
  · intro reg t notes tests presence valids items children ms hne hnn hng hnalt reg2
    simp [deriveType, hne, hnn, hng, hnalt, Except.map]

/-- The string produced by the Type Deriver does not depend on the registry
passed in (single-node form). -/
theorem deriveType_snd_indep : ∀ reg s reg2,
    (deriveType reg s).map Prod.snd = (deriveType reg2 s).map Prod.snd := by
  intro reg s reg2
  have h := deriveTypeList_snd_indep reg [s] reg2
  cases h1 : deriveType reg s with
  | error e =>
    cases h2 : deriveType reg2 s with
    | error e2 =>
      simp [deriveTypeList, h1, h2, Except.map] at h
      simp [h1, h2, Except.map, h]
    | ok p =>
      obtain ⟨r2, t2⟩ := p
      simp [deriveTypeList, h1, h2, Except.map] at h
  | ok p =>
    obtain ⟨r1, t1⟩ := p
    cases h2 : deriveType reg2 s with
    | error e2 =>
      simp [deriveTypeList, h1, h2, Except.map] at h
    | ok p2 =>
      obtain ⟨r2, t2⟩ := p2
      simp [deriveTypeList, h1, h2, Except.map] at h
      simp [h1, h2, Except.map, h]

/-- Canonical derived type expression of a node: the string component of
the Type Deriver, started from the empty registry (by the independence
lemmas this is the string produced from any registry). -/
def deriveStr (s : Schema) : Except String String :=
  (deriveType [] s).map Prod.snd

/-- A successful run of the Type Deriver over a list of nodes produces one
type expression per node, in order, each being that node's derived string. -/
theorem deriveTypeList_elementwise : ∀ ss reg reg2 ts,
    deriveTypeList reg ss = .ok (reg2, ts) →
    ts.length = ss.length ∧
    ∀ i (hi : i < ss.length) (hj : i < ts.length),
      deriveStr (ss.get ⟨i, hi⟩) = .ok (ts.get ⟨i, hj⟩) := by
  intro ss
  induction ss with
  | nil =>
    intro reg reg2 ts h
    simp [deriveTypeList] at h
    simp [h.2]
  | cons s rest ih =>
    intro reg reg2 ts h
    rw [deriveTypeList] at h
    cases h1 : deriveType reg s with
    | error e => simp [h1] at h
    | ok p =>
      obtain ⟨r1, t⟩ := p
      rw [h1] at h
      simp only [] at h
      cases h2 : deriveTypeList r1 rest with
      | error e => simp [h2] at h
      | ok q =>
        obtain ⟨r2, ts2⟩ := q
        rw [h2] at h
        simp at h
        obtain ⟨hr, hts⟩ := h
        obtain ⟨hlen, helt⟩ := ih r1 r2 ts2 h2
        subst hts
        constructor
        · simp [hlen]
        · intro i hi hj
          cases i with
          | zero =>
            obtain ⟨rz, hz⟩ := sndMapOkEq (deriveType_snd_indep reg s []) h1
            simp [deriveStr, hz, Except.map]
          | succ n =>
            simp only [List.get]
            exact helt n (by simpa using hi) (by simpa using hj)

end cli

namespace cli

/-- Example scalar schema node of kind string. -/
def exStr : Schema := .mk ("string") ([]) ([]) none ([]) ([]) ([]) ([])

/-- Example scalar schema node of kind number. -/
def exNum : Schema := .mk ("number") ([]) ([]) none ([]) ([]) ([]) ([])

/-- Example heterogeneous array schema node with items string and number. -/
def exHet : Schema := .mk ("array") ([]) ([]) none ([]) ([exStr, exNum]) ([]) ([])

/-- Claim C1: for an array schema node with a non-empty permitted-items
sequence, the Type Deriver returns the derivation of the single item with
square brackets appended when there is exactly one item, and returns an
Array union enumerating the derivation of every item — the first included,
in sequence order, one entry per item with no deduplication — when there
are two or more items. -/
theorem deriveType_array_spec (reg : List IDiscoverableType) (s : Schema)
    (harr : s.ty = "array") :
    (∀ item, s.items = [item] →
      deriveType reg s = (deriveType reg item).map (fun p => (p.1, p.2 ++ "[]"))) ∧
    (2 ≤ s.items.length →
      (deriveType reg s =
        (deriveTypeList reg s.items).map
          (fun p => (p.1, "Array<" ++ String.intercalate (" | ") p.2 ++ ">"))) ∧
      (∀ reg2 ts, deriveTypeList reg s.items = .ok (reg2, ts) →
        ts.length = s.items.length ∧
        ∀ i (hi : i < s.items.length) (hj : i < ts.length),
          deriveStr (s.items.get ⟨i, hi⟩) = .ok (ts.get ⟨i, hj⟩))) := by
  obtain ⟨ty, notes, tests, pr, v, items, ch, ms⟩ := s
  simp only [Schema.ty] at harr
  subst harr
  simp only [Schema.items]
  constructor
  · intro item hit
    subst hit
    rw [deriveType]
    cases h1 : deriveType reg item with
    | error e => simp [unwrapArray, h1, Except.map]
    | ok p =>
      obtain ⟨r1, t⟩ := p
      simp [unwrapArray, h1, Except.map]
  · intro hlen
    constructor
    · cases items with
      | nil => simp at hlen
      | cons a tl =>
        cases tl with
        | nil => simp at hlen
        | cons b rest =>
          rw [deriveType]
          cases h1 : deriveTypeList reg (a :: b :: rest) with
          | error e => simp [unwrapArray, h1, Except.map]
          | ok p =>
            obtain ⟨r1, ts⟩ := p
            simp [unwrapArray, h1, Except.map]
    · intro reg2 ts h
      exact deriveTypeList_elementwise items reg reg2 ts h

/-- Witness for claim C1: a concrete heterogeneous two-item array. -/
theorem deriveType_array_spec_witness :
    deriveType [] exHet =
      (deriveTypeList [] exHet.items).map
        (fun p => (p.1, "Array<" ++ String.intercalate (" | ") p.2 ++ ">")) :=
  ((deriveType_array_spec [] exHet (by rfl)).2 (by simp [exHet, Schema.items])).1

/-- Example string schema node that carries both a type note and a guid
test, so it satisfies two dispatch predicates at once. -/
def exBoth : Schema := .mk ("string") (["type:Money"]) (["guid"]) none ([]) ([]) ([]) ([])

/-- Claim C2: the Type Deriver dispatches on the first matching case in the
fixed order array kind, then a note matching the type pattern, then a guid
test, then alternatives (CLI variant), then the primitive fallback mapping
where date maps to Date and every other kind passes through unchanged; the
earliest matching case determines the result. -/
theorem deriveType_dispatch_order (reg : List IDiscoverableType) (s : Schema) :
    (s.ty = "array" → deriveType reg s = unwrapArray reg s.items) ∧
    (s.ty ≠ "array" → usableNotes s = true →
      deriveType reg s = unwrapNotes reg s.ty s.notes) ∧
    (s.ty ≠ "array" → usableNotes s = false → uuidCheck s = true →
      deriveType reg s = .ok (addDiscoveredType reg ⟨"Uuid", some ("string"), false⟩, "Uuid")) ∧
    (s.ty ≠ "array" → usableNotes s = false → uuidCheck s = false →
      alternativesCheck s = true →
      deriveType reg s =
        (deriveTypeList reg s.«matches»).map
          (fun p => (p.1, String.intercalate (" | ") p.2))) ∧
    (s.ty ≠ "array" → usableNotes s = false → uuidCheck s = false →
      alternativesCheck s = false →
      deriveType reg s = .ok (reg, joiToTypescript s.ty)) ∧
    joiToTypescript ("date") = "Date" ∧
    (∀ t, t ≠ "date" → joiToTypescript t = t) := by
  obtain ⟨ty, notes, tests, pr, v, items, ch, ms⟩ := s
  simp only [Schema.ty, Schema.items, Schema.notes, Schema.«matches», usableNotes, uuidCheck,
    alternativesCheck, Schema.tests]
  refine ⟨?_, ?_, ?_, ?_, ?_, by rfl, ?_⟩
  · intro h
    subst h
    rw [deriveType]
    simp
  · intro h hn
    rw [deriveType]
    simp [beq_eq_false_iff_ne.mpr h, hn]
  · intro h hn hg
    rw [deriveType]
    simp [beq_eq_false_iff_ne.mpr h, hn, hg]
  · intro h hn hg ha
    have ha2 : ty = "alternatives" := by simpa using ha
    subst ha2
    rw [deriveType]
    cases h1 : deriveTypeList reg ms with
    | error e => simp [h1, hn, hg, Except.map]
    | ok p =>
      obtain ⟨r1, ts⟩ := p
      simp [h1, hn, hg, Except.map]
  · intro h hn hg ha
    rw [deriveType]
    simp [beq_eq_false_iff_ne.mpr h, hn, hg, ha]
  · intro t ht
    unfold joiToTypescript
    split <;> simp_all

/-- Witness for claim C2: on a node carrying both a type note and a guid
test, the note case (the earlier one) determines the result. -/
theorem deriveType_dispatch_order_witness :
    deriveType [] exBoth = unwrapNotes [] ("string") (["type:Money"]) :=
  (deriveType_dispatch_order [] exBoth).2.1 (by decide) (by decide)

end cli

namespace cli

/-- The Union/Alias Resolver `resolveTypeDefinition` of the CLI variant:
a plain string renders with a leading space; a schema node with a
non-empty allowed-value set renders each value (quoted when the base kind
is string), skipping candidates already pushed, each on its own
union-prefixed line; an empty allowed-value set falls back to the
primitive-mapped base kind.  Passing `undefined` dereferences it. -/
def resolveTypeDefinition (node : AliasSrc) : Except String String :=
  match node with
  | .str s => .ok (" " ++ s)
  | .undef => .error ("TypeError: Cannot read property of undefined")
  | .sch n =>
    let baseType := n.ty
    let options := getUnion n
    match options with
    | [] => .ok (" " ++ joiToTypescript baseType)
    | _ :: _ =>
      .ok (String.join ((options.foldl
        (fun out opt =>
          let candidate := if baseType == "string" then "\"" ++ opt ++ "\"" else opt
          if out.contains candidate then out else out ++ [candidate]) []).map
        (fun str => "\n  | " ++ str)))

/-- Alias declaration writer `writeTypeAlias` of the CLI variant. -/
def writeTypeAlias (typeName : String) (type : AliasSrc) : Except String String :=
  match resolveTypeDefinition type with
  | .error e => .error e
  | .ok r => .ok ("export type " ++ typeName ++ " =" ++ r ++ ";")

/-- The field-line mapping inside `writeInterfaceType`: one line per child
in declared order, threading the registry through each `deriveType` call
such as the source's effectful `children.map`. -/
def fieldLines (useOptionTypes : Bool) :
    List IDiscoverableType → List (String × Schema) →
    Except String (List IDiscoverableType × List String)
  | reg, [] => .ok (reg, [])
  | reg, (key, schema) :: rest =>
    match deriveType reg schema with
    | .error e => .error e
    | .ok (reg1, t) =>
      match fieldLines useOptionTypes reg1 rest with
      | .error e => .error e
      | .ok (reg2, lines) =>
        .ok (reg2, ("  " ++ propName useOptionTypes key schema ++ ": " ++
          (if !isRequiredSchema schema && useOptionTypes then optionTypeWrapper t else t) ++
          ";") :: lines)

/-- Record declaration writer `writeInterfaceType`. -/
def writeInterfaceType (useOptionTypes : Bool) (reg : List IDiscoverableType)
    (typeName : String) (s : Schema) :
    Except String (List IDiscoverableType × String) :=
  match fieldLines useOptionTypes reg s.children with
  | .error e => .error e
  | .ok (reg1, lines) =>
    .ok (reg1, "export interface " ++ typeName ++ " \x7b\n" ++
      String.intercalate "\n" lines ++ "\n\x7d")

/-- Writer dispatch table `typeWriters`, keyed by the node kind: `array`
and `string` map to the alias writer, `object` to the record writer; any
other kind leaves the writer `undefined` and the call throws. -/
def typeWriters (useOptionTypes : Bool) (reg : List IDiscoverableType)
    (ty : String) (typeName : String) (s : Schema) :
    Except String (List IDiscoverableType × String) :=
  match ty with
  | "array" =>
    match writeTypeAlias typeName (.sch s) with
    | .error e => .error e
    | .ok r => .ok (reg, r)
  | "object" => writeInterfaceType useOptionTypes reg typeName s
  | "string" =>
    match writeTypeAlias typeName (.sch s) with
    | .error e => .error e
    | .ok r => .ok (reg, r)
  | _ => .error ("TypeError: writer is not a function")

/-- The in-place note mutation of `runTypeGenerator`: unless the schema's
notes already contain the exact note for its name, that note is pushed
onto the notes array; every other field is untouched. -/
def tagSchema (name : String) : Schema → Schema
  | .mk ty notes tests pr v items ch ms =>
    if notes.contains ("type:" ++ name) then .mk ty notes tests pr v items ch ms
    else .mk ty (notes ++ ["type:" ++ name]) tests pr v items ch ms

/-- The per-schema loop of `runTypeGenerator`: register the top-level name
with the skip mark, push the name note onto the schema, and run the writer
selected by the schema kind, accumulating one declaration per schema. -/
def schemaPass (useOptionTypes : Bool) :
    List IDiscoverableType → List (String × Schema) →
    Except String (List IDiscoverableType × List String)
  | reg, [] => .ok (reg, [])
  | reg, (name, schema) :: rest =>
    let reg1 := addDiscoveredType reg ⟨name, none, true⟩
    let schema1 := tagSchema name schema
    match typeWriters useOptionTypes reg1 schema.ty name schema1 with
    | .error e => .error e
    | .ok (reg2, decl) =>
      match schemaPass useOptionTypes reg2 rest with
      | .error e => .error e
      | .ok (reg3, decls) => .ok (reg3, decl :: decls)

/-- Rendering of one registry entry during the final flush: the entry's
`type` is the alias source (an absent `type` is `undefined`). -/
def writeTypeAliasEntry (t : IDiscoverableType) : Except String String :=
  writeTypeAlias t.name (match t.type with | some ty => .str ty | none => .undef)

/-- The `forEach`/`unshift` loop of the registry flush: each rendered
alias is pushed onto the front of the output. -/
def flushGo : List IDiscoverableType → List String → Except String (List String)
  | [], out => .ok out
  | t :: rest, out =>
    match writeTypeAliasEntry t with
    | .error e => .error e
    | .ok line => flushGo rest (line :: out)

/-- The registry flush of `runTypeGenerator`: entries with the skip mark
are filtered out, the rest are rendered and prepended. -/
def flushDiscovered (reg : List IDiscoverableType) (output : List String) :
    Except String (List String) :=
  flushGo (reg.filter (fun t => !t.skip)) output

/-- The import line unshifted when `useOptionTypes` is set. -/
def importLine : String := "import \x7b Option \x7d from \"fp-ts/lib/Option\";"

/-- Assembly of the types output file by `runTypeGenerator`: the schema
pass, then the registry flush prepended before the declarations, then the
option-type import line at the very front when configured. -/
def typesFileOutput (useOptionTypes : Bool) (schemaTypes : List (String × Schema)) :
    Except String (List String) :=
  match schemaPass useOptionTypes [] schemaTypes with
  | .error e => .error e
  | .ok (reg, schemaOutput) =>
    match flushDiscovered reg schemaOutput with
    | .error e => .error e
    | .ok withAliases =>
      .ok (if useOptionTypes then importLine :: withAliases else withAliases)

end cli

namespace cli

/-- A required string field annotated as the named type Money. -/
def moneyStrSchema : Schema :=
  .mk ("string") (["type:Money"]) ([]) (some ("required")) ([]) ([]) ([]) ([])

/-- A required number field also annotated as the named type Money. -/
def moneyNumSchema : Schema :=
  .mk ("number") (["type:Money"]) ([]) (some ("required")) ([]) ([]) ([]) ([])

/-- A top-level record schema with one Money-annotated field. -/
def orderSchema : Schema :=
  .mk ("object") ([]) ([]) none ([]) ([]) ([("price", moneyStrSchema)]) ([])

/-- A second top-level record schema with another Money-annotated field. -/
def invoiceSchema : Schema :=
  .mk ("object") ([]) ([]) none ([]) ([]) ([("cost", moneyNumSchema)]) ([])

/-- Claim C3: registry entries remain unique by name under any sequence of
registrations, a registration under an existing name is a no-op (first
writer wins, even with a different base expression or skip flag), and in
the concrete run where two fields of two different schemas both carry the
Money annotation the registry ends with exactly one Money entry (keeping
the first-registered base expression) while both fields derive to Money. -/
theorem registry_first_writer_wins :
    (∀ reg t, (∃ d ∈ reg, d.name = t.name) → addDiscoveredType reg t = reg) ∧
    (∀ reg t, (reg.map (fun d => d.name)).Nodup →
      ((addDiscoveredType reg t).map (fun d => d.name)).Nodup) ∧
    (∀ ts : List IDiscoverableType,
      ((ts.foldl addDiscoveredType []).map (fun d => d.name)).Nodup) ∧
    (schemaPass false [] [("Order", orderSchema), ("Invoice", invoiceSchema)] =
      .ok ([⟨"Order", none, true⟩, ⟨"Money", some ("string"), false⟩,
            ⟨"Invoice", none, true⟩],
           ["export interface Order \x7b\n  price: Money;\n\x7d",
            "export interface Invoice \x7b\n  cost: Money;\n\x7d"])) := by
  have hnoop : ∀ reg t, (∃ d ∈ reg, d.name = t.name) → addDiscoveredType reg t = reg := by
    intro reg t hex
    obtain ⟨d, hd, hname⟩ := hex
    unfold addDiscoveredType
    rw [if_pos]
    rw [List.find?_isSome]
    exact ⟨d, hd, by simp [hname]⟩
  have hpres : ∀ reg t, (reg.map (fun d => d.name)).Nodup →
      ((addDiscoveredType reg t).map (fun d => d.name)).Nodup := by
    intro reg t hnd
    unfold addDiscoveredType
    by_cases hf : (reg.find? (fun d => d.name == t.name)).isSome
    · rw [if_pos hf]
      exact hnd
    · rw [if_neg hf]
      have hf2 : reg.find? (fun d => d.name == t.name) = none := by
        rcases h2 : reg.find? (fun d => d.name == t.name) with _ | x
        · exact h2
        · simp [h2] at hf
      rw [List.find?_eq_none] at hf2
      rw [List.map_append, List.nodup_append]
      refine ⟨hnd, by simp, ?_⟩
      intro x hx
      simp only [List.mem_map] at hx
      obtain ⟨d, hd, hxd⟩ := hx
      have := hf2 d hd
      simp only [beq_iff_eq] at this
      simp [← hxd, this]
  refine ⟨hnoop, hpres, ?_, ?_⟩
  · intro ts
    have : ∀ reg, (reg.map (fun d => d.name)).Nodup →
        ((ts.foldl addDiscoveredType reg).map (fun d => d.name)).Nodup := by
      induction ts with
      | nil => intro reg h; simpa using h
      | cons t rest ih =>
        intro reg h
        exact ih (addDiscoveredType reg t) (hpres reg t h)
    exact this [] (by simp)
  · simp [schemaPass, orderSchema, invoiceSchema, moneyStrSchema, moneyNumSchema,
      addDiscoveredType, tagSchema, typeWriters, writeInterfaceType, fieldLines,
      Schema.ty, Schema.children, deriveType, unwrapNotes, nameFromNotes, stripTypeTag,
      typeCheckTest, propName, isRequiredSchema, Schema.presence, Schema.notes,
      String.intercalate, String.intercalate.go]

/-- Witness for claim C3: a duplicate Money registration with a different
base expression and skip flag leaves the registry unchanged. -/
theorem registry_first_writer_wins_witness :
    addDiscoveredType [⟨"Money", some ("string"), false⟩] ⟨"Money", some ("number"), true⟩ =
      [⟨"Money", some ("string"), false⟩] :=
  registry_first_writer_wins.1 [⟨"Money", some ("string"), false⟩]
    ⟨"Money", some ("number"), true⟩ ⟨⟨"Money", some ("string"), false⟩, by simp, by simp⟩

end cli

namespace cli

/-- Counterexample for claim C7: the error raised when no note matches the
type pattern carries one fixed message whatever the notes of the offending
node are — two different nodes produce the identical error — so the error
does not name the offending node. -/
theorem nameFromNotes_error_is_constant :
    nameFromNotes ["a"] = nameFromNotes ["b"] ∧
    nameFromNotes ["a"] = .error ("Must provide type information through notes.") := by
  constructor <;> rfl

/-- Claim C7 (amended): when no note matches the type pattern, extraction
fails loudly by raising an error with the fixed message rather than
silently defaulting (and `unwrapNotes` propagates that error unchanged);
when some note matches, the first matching note with the type prefix
stripped is returned. -/
theorem nameFromNotes_spec (notes : List String) :
    (notes.find? (fun n => typeCheckTest n) = none →
      nameFromNotes notes = .error ("Must provide type information through notes.")) ∧
    (∀ reg ty, notes.find? (fun n => typeCheckTest n) = none →
      unwrapNotes reg ty notes = .error ("Must provide type information through notes.")) ∧
    (∀ note, notes.find? (fun n => typeCheckTest n) = some note →
      nameFromNotes notes = .ok (stripTypeTag note)) := by
  refine ⟨?_, ?_, ?_⟩
  · intro h
    simp [nameFromNotes, h]
  · intro reg ty h
    simp [unwrapNotes, nameFromNotes, h]
  · intro note h
    simp [nameFromNotes, h]

/-- Witness for claim C7 (amended): a concrete failing and a concrete
succeeding extraction. -/
theorem nameFromNotes_spec_witness :
    nameFromNotes ["plain note"] = .error ("Must provide type information through notes.") ∧
    nameFromNotes ["plain note", "type:Widget"] = .ok ("Widget") := by
  constructor
  · exact (nameFromNotes_spec ["plain note"]).1 (by decide)
  · exact (nameFromNotes_spec ["plain note", "type:Widget"]).2.2 "type:Widget" (by decide)

end cli

namespace cli

/-- A successful field-line run produces one line per child, in declared
order; each line joins the rendered field name, the derived (possibly
wrapped) type of that child, and the line punctuation. -/
theorem fieldLines_spec : ∀ (children : List (String × Schema)) useOpt reg reg2 lines,
    fieldLines useOpt reg children = .ok (reg2, lines) →
    lines.length = children.length ∧
    ∀ i (hi : i < children.length) (hj : i < lines.length),
      ∃ t, deriveStr (children.get ⟨i, hi⟩).2 = .ok t ∧
        lines.get ⟨i, hj⟩ =
          "  " ++ propName useOpt (children.get ⟨i, hi⟩).1 (children.get ⟨i, hi⟩).2 ++
          ": " ++
          (if !isRequiredSchema (children.get ⟨i, hi⟩).2 && useOpt then
            optionTypeWrapper t else t) ++ ";" := by
  intro children
  induction children with
  | nil =>
    intro useOpt reg reg2 lines h
    simp [fieldLines] at h
    simp [h.2]
  | cons c rest ih =>
    intro useOpt reg reg2 lines h
    obtain ⟨key, schema⟩ := c
    rw [fieldLines] at h
    cases h1 : deriveType reg schema with
    | error e => simp [h1] at h
    | ok p =>
      obtain ⟨r1, t⟩ := p
      rw [h1] at h
      simp only [] at h
      cases h2 : fieldLines useOpt r1 rest with
      | error e => simp [h2] at h
      | ok q =>
        obtain ⟨r2, lines2⟩ := q
        rw [h2] at h
        simp at h
        obtain ⟨hr, hlines⟩ := h
        obtain ⟨hlen, helt⟩ := ih useOpt r1 r2 lines2 h2
        subst hlines
        constructor
        · simp [hlen]
        · intro i hi hj
          cases i with
          | zero =>
            obtain ⟨rz, hz⟩ := sndMapOkEq (deriveType_snd_indep reg schema []) h1
            exact ⟨t, by simp [deriveStr, hz, Except.map], by simp⟩
          | succ n =>
            simp only [List.get]
            exact helt n (by simpa using hi) (by simpa using hj)

/-- Claim C5: a successfully generated record declaration contains exactly
one field line per child, in the children's declared order; the field name
is the child's key suffixed with a question mark iff the child is not
required, except that with `useOptionTypes` the key is bare and a
non-required field's type is wrapped in Option; the field's type is the
child's derived type expression. -/
theorem writeInterfaceType_fields_spec (useOpt : Bool) (reg : List IDiscoverableType)
    (typeName : String) (s : Schema) (reg2 : List IDiscoverableType) (out : String)
    (h : writeInterfaceType useOpt reg typeName s = .ok (reg2, out)) :
    (∃ lines,
      fieldLines useOpt reg s.children = .ok (reg2, lines) ∧
      out = "export interface " ++ typeName ++ " \x7b\n" ++
        String.intercalate "\n" lines ++ "\n\x7d" ∧
      lines.length = s.children.length ∧
      ∀ i (hi : i < s.children.length) (hj : i < lines.length),
        ∃ t, deriveStr (s.children.get ⟨i, hi⟩).2 = .ok t ∧
          lines.get ⟨i, hj⟩ =
            "  " ++ propName useOpt (s.children.get ⟨i, hi⟩).1 (s.children.get ⟨i, hi⟩).2 ++
            ": " ++
            (if !isRequiredSchema (s.children.get ⟨i, hi⟩).2 && useOpt then
              optionTypeWrapper t else t) ++ ";") ∧
    (∀ key sch, propName false key sch =
      if isRequiredSchema sch then key else key ++ "?") ∧
    (∀ key sch, propName true key sch = key) := by
  refine ⟨?_, ?_, ?_⟩
  · rw [writeInterfaceType] at h
    cases h1 : fieldLines useOpt reg s.children with
    | error e => simp [h1] at h
    | ok q =>
      obtain ⟨r1, lines⟩ := q
      rw [h1] at h
      simp at h
      obtain ⟨hr, hout⟩ := h
      obtain ⟨hlen, helt⟩ := fieldLines_spec s.children useOpt reg r1 lines h1
      refine ⟨lines, ?_, hout.symm, hlen, helt⟩
      simp [hr]
  · intro key sch
    simp [propName]
  · intro key sch
    simp [propName]

/-- A required plain string field. -/
def reqStr : Schema := .mk ("string") ([]) ([]) (some ("required")) ([]) ([]) ([]) ([])

/-- An optional plain string field. -/
def optStr : Schema := .mk ("string") ([]) ([]) none ([]) ([]) ([]) ([])

/-- A record schema with one required and one optional field. -/
def widgetSchema : Schema :=
  .mk ("object") ([]) ([]) none ([]) ([]) ([("id", reqStr), ("note", optStr)]) ([])

/-- Witness for claim C5: the concrete record run under `useOptionTypes`
yields one line per field with the optional field Option-wrapped. -/
theorem writeInterfaceType_fields_spec_witness :
    ∃ lines, fieldLines true [] widgetSchema.children = .ok ([], lines) ∧
      lines.length = widgetSchema.children.length := by
  obtain ⟨⟨lines, h1, h2, h3, h4⟩, h5, h6⟩ :=
    writeInterfaceType_fields_spec true [] "Widget" widgetSchema []
      ("export interface Widget \x7b\n  id: string;\n  note: Option<string>;\n\x7d")
      (by simp [writeInterfaceType, widgetSchema, reqStr, optStr, fieldLines, deriveType,
        joiToTypescript, propName, isRequiredSchema, optionTypeWrapper, Schema.children,
        Schema.presence, String.intercalate, String.intercalate.go])
  exact ⟨lines, h1, h3⟩

end cli

namespace cli

/-- The flush loop renders each entry in registry order and pushes it onto
the front of the output: the result is the reversed rendered list followed
by the prior output. -/
theorem flushGo_spec : ∀ (ents : List IDiscoverableType) (out : List String),
    (∀ t ∈ ents, t.type.isSome) →
    ∃ aliases : List String,
      aliases.length = ents.length ∧
      (∀ i (hi : i < ents.length) (hj : i < aliases.length),
        writeTypeAliasEntry (ents.get ⟨i, hi⟩) = .ok (aliases.get ⟨i, hj⟩)) ∧
      flushGo ents out = .ok (aliases.reverse ++ out) := by
  intro ents
  induction ents with
  | nil =>
    intro out hty
    exact ⟨[], by simp, by simp, by simp [flushGo]⟩
  | cons t rest ih =>
    intro out hty
    have htt : t.type.isSome := hty t (by simp)
    obtain ⟨ty, hty2⟩ := Option.isSome_iff_exists.mp htt
    have hline : writeTypeAliasEntry t =
        .ok ("export type " ++ t.name ++ " =" ++ (" " ++ ty) ++ ";") := by
      simp [writeTypeAliasEntry, hty2, writeTypeAlias, resolveTypeDefinition]
    obtain ⟨aliases, hlen, helt, hflush⟩ :=
      ih (("export type " ++ t.name ++ " =" ++ (" " ++ ty) ++ ";") :: out)
        (fun d hd => hty d (by simp [hd]))
    refine ⟨("export type " ++ t.name ++ " =" ++ (" " ++ ty) ++ ";") :: aliases, by simp [hlen],
      ?_, ?_⟩
    · intro i hi hj
      cases i with
      | zero => simpa using hline
      | succ n =>
        simp only [List.get]
        exact helt n (by simpa using hi) (by simpa using hj)
    · rw [flushGo, hline]
      simp only [hflush]
      simp

/-- Claim C6: after the schema pass, exactly the registry entries without
the skip mark are rendered as plain alias declarations and placed before
the top-level declarations, most recently discovered first (the reverse of
registry discovery order, from the prepend-at-front loop); skip-marked
entries are never re-rendered. -/
theorem typesFile_assembly_spec (useOpt : Bool) (schemaTypes : List (String × Schema))
    (reg : List IDiscoverableType) (outs : List String)
    (hpass : schemaPass useOpt [] schemaTypes = .ok (reg, outs))
    (htypes : ∀ t ∈ reg, t.skip = false → t.type.isSome) :
    ∃ aliases : List String,
      aliases.length = (reg.filter (fun t => !t.skip)).length ∧
      (∀ i (hi : i < (reg.filter (fun t => !t.skip)).length) (hj : i < aliases.length),
        writeTypeAliasEntry ((reg.filter (fun t => !t.skip)).get ⟨i, hi⟩) =
          .ok (aliases.get ⟨i, hj⟩)) ∧
      typesFileOutput useOpt schemaTypes =
        .ok ((if useOpt then [importLine] else []) ++ aliases.reverse ++ outs) := by
  have hents : ∀ t ∈ reg.filter (fun t => !t.skip), t.type.isSome := by
    intro t ht
    rw [List.mem_filter] at ht
    exact htypes t ht.1 (by simpa using ht.2)
  obtain ⟨aliases, hlen, helt, hflush⟩ := flushGo_spec (reg.filter (fun t => !t.skip)) outs hents
  refine ⟨aliases, hlen, helt, ?_⟩
  rw [typesFileOutput, hpass]
  simp only [flushDiscovered, hflush]
  cases useOpt <;> simp

/-- Witness for claim C6: in the concrete one-schema run the discovered
Money alias is placed before the interface declaration and the skip-marked
Order entry is not re-rendered. -/
theorem typesFile_assembly_spec_witness :
    ∃ aliases : List String, aliases.length = 1 ∧
      typesFileOutput false [("Order", orderSchema)] =
        .ok (aliases.reverse ++ ["export interface Order \x7b\n  price: Money;\n\x7d"]) := by
  obtain ⟨aliases, hlen, helt, hout⟩ :=
    typesFile_assembly_spec false [("Order", orderSchema)]
      [⟨"Order", none, true⟩, ⟨"Money", some ("string"), false⟩]
      ["export interface Order \x7b\n  price: Money;\n\x7d"]
      (by simp [schemaPass, orderSchema, moneyStrSchema, addDiscoveredType, tagSchema,
        typeWriters, writeInterfaceType, fieldLines, Schema.ty, Schema.children, deriveType,
        unwrapNotes, nameFromNotes, stripTypeTag, typeCheckTest, propName, isRequiredSchema,
        Schema.presence, Schema.notes, String.intercalate, String.intercalate.go])
      (by decide)
  refine ⟨aliases, ?_, ?_⟩
  · simpa using hlen
  · simpa using hout

end cli

namespace cli

/-- Claim C10: during the CLI generation pass each selected top-level
schema is mutated in place before its declaration is written — unless its
notes already contain the exact name note, that note is appended to the
notes array; every other schema field is untouched; and the declaration
writer runs on the mutated schema. -/
theorem tagSchema_frame_spec (name : String) (s : Schema) :
    (("type:" ++ name) ∈ s.notes → tagSchema name s = s) ∧
    (("type:" ++ name) ∉ s.notes →
      (tagSchema name s).notes = s.notes ++ ["type:" ++ name]) ∧
    (tagSchema name s).ty = s.ty ∧
    (tagSchema name s).tests = s.tests ∧
    (tagSchema name s).presence = s.presence ∧
    (tagSchema name s).valids = s.valids ∧
    (tagSchema name s).items = s.items ∧
    (tagSchema name s).children = s.children ∧
    (tagSchema name s).«matches» = s.«matches» ∧
    (∀ useOpt reg, schemaPass useOpt reg [(name, s)] =
      match typeWriters useOpt (addDiscoveredType reg ⟨name, none, true⟩) s.ty name
          (tagSchema name s) with
      | .error e => .error e
      | .ok (reg2, decl) => .ok (reg2, [decl])) := by
  obtain ⟨ty, notes, tests, pr, v, items, ch, ms⟩ := s
  by_cases hc : ("type:" ++ name) ∈ notes
  · have htag : tagSchema name (.mk ty notes tests pr v items ch ms) =
        .mk ty notes tests pr v items ch ms := by
      simp [tagSchema, hc]
    refine ⟨fun _ => htag, ?_, ?_, ?_, ?_, ?_, ?_, ?_, ?_, ?_⟩
    · intro hn
      exact absurd (by simpa [Schema.notes] using hc) hn
    · simp [htag]
    · simp [htag]
    · simp [htag]
    · simp [htag]
    · simp [htag]
    · simp [htag]
    · simp [htag]
    · intro useOpt reg
      rw [schemaPass]
      cases hw : typeWriters useOpt (addDiscoveredType reg ⟨name, none, true⟩) ty name
          (tagSchema name (.mk ty notes tests pr v items ch ms)) with
      | error e => simp [Schema.ty, hw, schemaPass]
      | ok p =>
        obtain ⟨r2, decl⟩ := p
        simp [Schema.ty, hw, schemaPass]
  · have htag : tagSchema name (.mk ty notes tests pr v items ch ms) =
        .mk ty (notes ++ ["type:" ++ name]) tests pr v items ch ms := by
      simp [tagSchema, hc]
    refine ⟨?_, ?_, ?_, ?_, ?_, ?_, ?_, ?_, ?_, ?_⟩
    · intro hmem
      exact absurd (by simpa [Schema.notes] using hmem) hc
    · intro _
      simp [htag, Schema.notes]
    · simp [htag, Schema.ty]
    · simp [htag, Schema.tests]
    · simp [htag, Schema.presence]
    · simp [htag, Schema.valids]
    · simp [htag, Schema.items]
    · simp [htag, Schema.children]
    · simp [htag, Schema.«matches»]
    · intro useOpt reg
      rw [schemaPass]
      cases hw : typeWriters useOpt (addDiscoveredType reg ⟨name, none, true⟩) ty name
          (tagSchema name (.mk ty notes tests pr v items ch ms)) with
      | error e => simp [Schema.ty, hw, schemaPass]
      | ok p =>
        obtain ⟨r2, decl⟩ := p
        simp [Schema.ty, hw, schemaPass]

/-- Witness for claim C10: the Order schema has no notes, so generation
appends the name note to its notes array in place. -/
theorem tagSchema_frame_spec_witness :
    (tagSchema "Order" orderSchema).notes = orderSchema.notes ++ ["type:Order"] :=
  (tagSchema_frame_spec "Order" orderSchema).2.1 (by decide)

end cli

/-- The fold that pushes each element not already present: the result
appends to the accumulator a duplicate-free selection of the input that
preserves first-seen order (a sublist) and covers exactly the elements
missing from the accumulator. -/
theorem pushUnique_foldl_spec (l : List String) : ∀ acc : List String,
    ∃ t, l.foldl (fun out c => if out.contains c then out else out ++ [c]) acc = acc ++ t ∧
      t.Sublist l ∧ (∀ x, x ∈ t ↔ x ∉ acc ∧ x ∈ l) ∧
      (acc.Nodup → (acc ++ t).Nodup) := by
  induction l with
  | nil =>
    intro acc
    exact ⟨[], by simp, by simp, by simp, by simp⟩
  | cons c l ih =>
    intro acc
    by_cases hc : c ∈ acc
    · obtain ⟨t, hfold, hsub, hmem, hnd⟩ := ih acc
      refine ⟨t, ?_, hsub.cons c, ?_, hnd⟩
      · rw [List.foldl_cons]
        have : acc.contains c = true := by simpa using hc
        rw [if_pos this]
        exact hfold
      · intro x
        rw [hmem x]
        constructor
        · rintro ⟨hxa, hxl⟩
          exact ⟨hxa, by simp [hxl]⟩
        · rintro ⟨hxa, hxl⟩
          rcases List.mem_cons.mp hxl with hxc | hxl2
          · exact absurd (hxc ▸ hc) hxa
          · exact ⟨hxa, hxl2⟩
    · obtain ⟨t, hfold, hsub, hmem, hnd⟩ := ih (acc ++ [c])
      refine ⟨c :: t, ?_, hsub.cons₂ c, ?_, ?_⟩
      · rw [List.foldl_cons]
        have : acc.contains c = false := by simpa using hc
        rw [this]
        simpa [List.append_assoc] using hfold
      · intro x
        constructor
        · intro hx
          rcases List.mem_cons.mp hx with hxc | hxt
          · subst hxc
            exact ⟨hc, by simp⟩
          · obtain ⟨hxa, hxl⟩ := (hmem x).mp hxt
            refine ⟨fun hin => hxa (by simp [hin]), by simp [hxl]⟩
        · rintro ⟨hxa, hxl⟩
          rcases List.mem_cons.mp hxl with hxc | hxl2
          · simp [hxc]
          · by_cases hxec : x = c
            · simp [hxec]
            · refine List.mem_cons_of_mem c ((hmem x).mpr ⟨?_, hxl2⟩)
              simp [hxa, hxec]
      · intro hndacc
        have h1 : (acc ++ [c]).Nodup := by
          rw [List.nodup_append]
          refine ⟨hndacc, by simp, ?_⟩
          intro a ha hac
          rw [List.mem_singleton] at hac
          exact hc (hac ▸ ha)
        have := hnd h1
        simpa [List.append_assoc] using this

namespace idx

/-- Accessor `getUnion` of the minimal variant: the allowed-value set. -/
def getUnion (s : Schema) : List String :=
  s.valids

/-- Primitive-kind mapping `joiToTypescript` of the minimal variant. -/
def joiToTypescript (type : String) : String :=
  match type with
  | "date" => "Date"
  | _ => type

/-- The Union/Alias Resolver `resolveTypeDefinition` of the minimal
variant: a plain string node is returned as is; a schema node with a
non-empty allowed-value set collects each rendered value (quoted when the
base kind is string) skipping candidates already pushed; with an empty
set the primitive-mapped base kind is pushed instead; the collected list
is joined with the union operator. -/
def resolveTypeDefinition (node : AliasSrc) : Except String String :=
  match node with
  | .str s => .ok s
  | .undef => .error ("TypeError: Cannot read property of undefined")
  | .sch n =>
    let baseType := n.ty
    let options := getUnion n
    let out : List String :=
      match options with
      | [] => [joiToTypescript baseType]
      | _ :: _ =>
        options.foldl
          (fun out opt =>
            let candidate := if baseType == "string" then "\"" ++ opt ++ "\"" else opt
            if out.contains candidate then out else out ++ [candidate]) []
    .ok (String.intercalate (" | ") out)

/-- Alias declaration writer `writeTypeAlias` of the minimal variant. -/
def writeTypeAlias (typeName : String) (type : AliasSrc) : Except String String :=
  match resolveTypeDefinition type with
  | .error e => .error e
  | .ok r => .ok ("export type " ++ typeName ++ " = " ++ r ++ ";")

end idx

namespace idx

/-- Specialization of the push-unique fold to the resolver's candidate
rendering (quote when the base kind is string). -/
theorem renderedUnion_foldl_spec (q : Bool) (l : List String) : ∀ acc : List String,
    ∃ t, l.foldl (fun out opt =>
        if out.contains (if q then "\"" ++ opt ++ "\"" else opt) then out
        else out ++ [if q then "\"" ++ opt ++ "\"" else opt]) acc = acc ++ t ∧
      t.Sublist (l.map (fun opt => if q then "\"" ++ opt ++ "\"" else opt)) ∧
      (∀ x, x ∈ t ↔ x ∉ acc ∧ x ∈ l.map (fun opt => if q then "\"" ++ opt ++ "\"" else opt)) ∧
      (acc.Nodup → (acc ++ t).Nodup) := by
  intro acc
  obtain ⟨t, hfold, hsub, hmem, hnd⟩ :=
    pushUnique_foldl_spec (l.map (fun opt => if q then "\"" ++ opt ++ "\"" else opt)) acc
  have h2 := List.foldl_map (fun opt => if q then "\"" ++ opt ++ "\"" else opt)
    (fun out c => if out.contains c then out else out ++ [c]) l acc
  exact ⟨t, h2.symm.trans hfold, hsub, hmem, hnd⟩

/-- A string-typed top-level schema restricted to the values a, a, b. -/
def statusSchema : Schema :=
  .mk ("string") ([]) ([]) none (["a", "a", "b"]) ([]) ([]) ([])

/-- Claim C4: the Union/Alias Resolver renders a node with a non-empty
allowed-value set as the union of its allowed values — each quoted iff the
base kind is string, deduplicated by rendered text preserving first-seen
order — and renders a node with an empty allowed-value set as the
primitive-mapped base kind (in both generator variants, the CLI one with
its line-per-literal layout); in particular the allowed values a, a, b on
the string-typed schema named Status yield the collapsed two-literal
alias. -/
theorem resolveTypeDefinition_union_spec (node : Schema) :
    (node.valids ≠ [] →
      ∃ out : List String,
        out.Nodup ∧
        out.Sublist (node.valids.map (fun v =>
          if node.ty == "string" then "\"" ++ v ++ "\"" else v)) ∧
        (∀ x, x ∈ out ↔ x ∈ node.valids.map (fun v =>
          if node.ty == "string" then "\"" ++ v ++ "\"" else v)) ∧
        resolveTypeDefinition (.sch node) = .ok (String.intercalate (" | ") out) ∧
        cli.resolveTypeDefinition (.sch node) =
          .ok (String.join (out.map (fun str => "\n  | " ++ str)))) ∧
    (node.valids = [] →
      resolveTypeDefinition (.sch node) = .ok (joiToTypescript node.ty) ∧
      cli.resolveTypeDefinition (.sch node) = .ok (" " ++ cli.joiToTypescript node.ty)) ∧
    writeTypeAlias "Status" (.sch statusSchema) =
      .ok ("export type Status = \"a\" | \"b\";") := by
  obtain ⟨ty, notes, tests, pr, v, items, ch, ms⟩ := node
  simp only [Schema.valids, Schema.ty]
  refine ⟨?_, ?_, ?_⟩
  · intro hne
    cases v with
    | nil => exact absurd rfl hne
    | cons a vs =>
      obtain ⟨out, hfold, hsub, hmem, hnd⟩ := renderedUnion_foldl_spec (ty == "string") (a :: vs) []
      simp only [List.nil_append] at hfold
      refine ⟨out, hnd (by simp), hsub, ?_, ?_, ?_⟩
      · intro x
        rw [hmem x]
        simp
      · simp only [resolveTypeDefinition, getUnion, Schema.valids, Schema.ty]
        rw [hfold]
      · simp only [cli.resolveTypeDefinition, cli.getUnion, Schema.valids, Schema.ty]
        rw [hfold]
  · intro hv
    subst hv
    constructor
    · simp [resolveTypeDefinition, getUnion, Schema.valids, Schema.ty,
        String.intercalate, String.intercalate.go]
    · simp [cli.resolveTypeDefinition, cli.getUnion, Schema.valids, Schema.ty]
  · simp [writeTypeAlias, resolveTypeDefinition, statusSchema, getUnion, Schema.valids,
      Schema.ty, String.intercalate, String.intercalate.go]

/-- Witness for claim C4: the concrete Status run has a duplicate-free
literal list. -/
theorem resolveTypeDefinition_union_spec_witness :
    ∃ out : List String, out.Nodup ∧
      resolveTypeDefinition (.sch statusSchema) = .ok (String.intercalate (" | ") out) := by
  obtain ⟨out, hnd, hsub, hmem, hidx, hcli⟩ :=
    (resolveTypeDefinition_union_spec statusSchema).1 (by decide)
  exact ⟨out, hnd, hidx⟩

end idx

namespace idx

/-- JavaScript truthiness of a possibly-absent command-line argument:
`undefined` (a missing index) and the empty string are falsy. -/
def truthy (v : Option String) : Bool :=
  match v with
  | none => false
  | some s => !(s == "")

/-- The argument guard of the minimal generator: `process.argv` positions
2 and 3 are the source and destination paths, and the process exits with
status 1 when `!sourcePath && !destPath`. -/
def argvGuardExits (argv : List String) : Bool :=
  !truthy (argv.get? 2) && !truthy (argv.get? 3)

/-- Claim C9 evaluated on the code: with the source path present but the
destination path missing the guard does not exit (the conjunction only
fires when both are missing), contradicting the claim that any missing
argument exits; the second conjunct shows the both-missing case that does
exit. -/
theorem argvGuard_single_missing_arg :
    argvGuardExits ["node", "index.ts", "schemas.js"] = false ∧
    argvGuardExits ["node", "index.ts"] = true ∧
    argvGuardExits ["node", "index.ts", "schemas.js", "types.ts"] = false := by
  refine ⟨?_, ?_, ?_⟩ <;> rfl

end idx

namespace coercion

/-- A value stored under a key of a joi validation-options object. -/
inductive JsOptionValue where
  | bool (b : Bool)
  | str (s : String)
deriving DecidableEq

/-- A JavaScript options object, as a partial map from keys to values. -/
def JsOptions : Type := String → Option JsOptionValue

/-- The fixed `defaultOptions` of the coercion module. -/
def defaultOptions : JsOptions := fun k =>
  if k == "allowUnknown" then some (.bool true)
  else if k == "convert" then some (.bool true)
  else if k == "presence" then some (.str ("optional"))
  else if k == "stripUnknown" then some (.bool true)
  else none

/-- `Object.assign({}, base, over)`: keys of the override shadow the base. -/
def objectAssign (base over : JsOptions) : JsOptions :=
  fun k => (over k).orElse (fun _ => base k)

/-- The generated `coerceValue` wrapper, parameterized by the external
`joi.validate` (whose synchronous callback either throws the validation
error or yields the normalized result) and by the external deep-freeze
function: caller options are merged over the defaults, the value is
validated, and the frozen result is returned; a validation error is
rethrown unchanged. -/
def coerceValue {V S E : Type} (joiValidate : V → S → JsOptions → Except E V)
    (freeze : V → V) (schema : S) (object : V) (options : JsOptions) : Except E V :=
  let resolvedOptions := objectAssign defaultOptions options
  match joiValidate object schema resolvedOptions with
  | .error err => .error err
  | .ok result => .ok (freeze result)

/-- Claim C8: `coerceValue` merges the caller's options over the fixed
defaults (caller-supplied keys override, missing keys fall back to the
defaults, which are allowUnknown true, convert true, presence optional,
stripUnknown true), validates the raw value against the schema with the
merged options, returns the deep-frozen validation result on success, and
rethrows the validation error unchanged on failure. -/
theorem coerceValue_spec {V S E : Type} (joiValidate : V → S → JsOptions → Except E V)
    (freeze : V → V) (schema : S) (object : V) (options : JsOptions) :
    (∀ k w, options k = some w → objectAssign defaultOptions options k = some w) ∧
    (∀ k, options k = none → objectAssign defaultOptions options k = defaultOptions k) ∧
    defaultOptions ("allowUnknown") = some (.bool true) ∧
    defaultOptions ("convert") = some (.bool true) ∧
    defaultOptions ("presence") = some (.str ("optional")) ∧
    defaultOptions ("stripUnknown") = some (.bool true) ∧
    (∀ k, defaultOptions k ≠ none →
      k = "allowUnknown" ∨ k = "convert" ∨ k = "presence" ∨ k = "stripUnknown") ∧
    (∀ e, joiValidate object schema (objectAssign defaultOptions options) = .error e →
      coerceValue joiValidate freeze schema object options = .error e) ∧
    (∀ r, joiValidate object schema (objectAssign defaultOptions options) = .ok r →
      coerceValue joiValidate freeze schema object options = .ok (freeze r)) := by
  refine ⟨?_, ?_, by rfl, by rfl, by rfl, by rfl, ?_, ?_, ?_⟩
  · intro k w h
    simp [objectAssign, h, Option.orElse]
  · intro k h
    simp [objectAssign, h, Option.orElse]
  · intro k h
    by_cases h1 : k = "allowUnknown"
    · exact Or.inl h1
    · by_cases h2 : k = "convert"
      · exact Or.inr (Or.inl h2)
      · by_cases h3 : k = "presence"
        · exact Or.inr (Or.inr (Or.inl h3))
        · by_cases h4 : k = "stripUnknown"
          · exact Or.inr (Or.inr (Or.inr h4))
          · exact absurd (by simp [defaultOptions, h1, h2, h3, h4]) h
  · intro e h
    simp [coerceValue, h]
  · intro r h
    simp [coerceValue, h]

/-- Witness for claim C8: a toy validator run through `coerceValue`
returning the frozen success value, at concrete inputs. -/
theorem coerceValue_spec_witness :
    coerceValue
      (fun (v : Nat) (_ : Unit) (_ : JsOptions) =>
        if v == 0 then (.error ("validation failed") : Except String Nat) else .ok (v + 1))
      (fun v => v) () 1 (fun _ => none) = .ok 2 :=
  (coerceValue_spec
      (fun (v : Nat) (_ : Unit) (_ : JsOptions) =>
        if v == 0 then (.error ("validation failed") : Except String Nat) else .ok (v + 1))
      (fun v => v) () 1 (fun _ => none)).2.2.2.2.2.2.2.2 2 (by rfl)

end coercion
